import Mathlib

/-!
Verification of the kyotee orchestrator (src/agent/tools/orchestrator.py)
against its natural-language specification.

The Python source is shallowly embedded below.  External collaborators
(subprocess execution, the filesystem, git, the jsonschema library's
iter_errors) are modelled as oracles supplied per phase entry; everything
the orchestrator itself computes (regex-based JSON extraction, JSON
parsing, validation-report assembly, write-policy checking, gate-result
aggregation, and the phase state machine) is translated directly from the
source.  Strings write literal braces as escape sequences.
-/

/-- Brace characters, named to keep them out of literals. -/
def lbrace : Char := Char.ofNat 123

/-- Closing brace character. -/
def rbrace : Char := Char.ofNat 125

/-- JSON values as produced by Python json.loads.  Numbers keep their
source lexeme (the claims only ever compare syntactically identical
numerals, so no numeric interpretation is needed). -/
inductive JVal where
  | jnull : JVal
  | jbool : Bool → JVal
  | jnum : String → JVal
  | jstr : String → JVal
  | jarr : List JVal → JVal
  | jobj : List (String × JVal) → JVal
deriving Repr

mutual

def JVal.beq : JVal → JVal → Bool
  | .jnull, .jnull => true
  | .jbool a, .jbool b => a == b
  | .jnum a, .jnum b => a == b
  | .jstr a, .jstr b => a == b
  | .jarr a, .jarr b => JVal.beqList a b
  | .jobj a, .jobj b => JVal.beqKvs a b
  | _, _ => false

def JVal.beqList : List JVal → List JVal → Bool
  | [], [] => true
  | a :: as, b :: bs => JVal.beq a b && JVal.beqList as bs
  | _, _ => false

def JVal.beqKvs : List (String × JVal) → List (String × JVal) → Bool
  | [], [] => true
  | (ka, va) :: as, (kb, vb) :: bs => ka == kb && JVal.beq va vb && JVal.beqKvs as bs
  | _, _ => false

end

/-- Whitespace accepted by the JSON grammar (and json.loads). -/
def jsonWs (c : Char) : Bool :=
  c = ' ' || c = '\t' || c = '\n' || c = '\r'

/-- Drop leading JSON whitespace. -/
def skipWs (cs : List Char) : List Char :=
  cs.dropWhile jsonWs

/-- Hexadecimal digit value, for the uXXXX string escape. -/
def hexVal (c : Char) : Option Nat :=
  if '0' ≤ c ∧ c ≤ '9' then some (c.toNat - '0'.toNat)
  else if 'a' ≤ c ∧ c ≤ 'f' then some (c.toNat - 'a'.toNat + 10)
  else if 'A' ≤ c ∧ c ≤ 'F' then some (c.toNat - 'A'.toNat + 10)
  else none

/-- Parse the body of a JSON string after the opening quote, strict mode
(unescaped control characters are rejected, as json.loads does).  Fuel
bounds the recursion. -/
def pStr : Nat → List Char → Option (List Char × List Char)
  | 0, _ => none
  | _, [] => none
  | fuel + 1, c :: cs =>
    if c = '"' then some ([], cs)
    else if c = '\\' then
      match cs with
      | [] => none
      | e :: cs2 =>
        let esc : Option (Char × List Char) :=
          if e = '"' then some ('"', cs2)
          else if e = '\\' then some ('\\', cs2)
          else if e = '/' then some ('/', cs2)
          else if e = 'b' then some (Char.ofNat 8, cs2)
          else if e = 'f' then some (Char.ofNat 12, cs2)
          else if e = 'n' then some ('\n', cs2)
          else if e = 'r' then some ('\r', cs2)
          else if e = 't' then some ('\t', cs2)
          else if e = 'u' then
            match cs2 with
            | h1 :: h2 :: h3 :: h4 :: cs3 =>
              match hexVal h1, hexVal h2, hexVal h3, hexVal h4 with
              | some a, some b, some c3, some d =>
                some (Char.ofNat (((a * 16 + b) * 16 + c3) * 16 + d), cs3)
              | _, _, _, _ => none
            | _ => none
          else none
        match esc with
        | none => none
        | some (ch, rest) =>
          match pStr fuel rest with
          | some (tail, rem) => some (ch :: tail, rem)
          | none => none
    else if c.toNat < 32 then none
    else
      match pStr fuel cs with
      | some (tail, rem) => some (c :: tail, rem)
      | none => none

/-- Digit test for number lexing. -/
def isDig (c : Char) : Bool := '0' ≤ c ∧ c ≤ '9'

/-- Lex a JSON number and return its lexeme. -/
def pNum (cs : List Char) : Option (List Char × List Char) :=
  let (sign, cs1) :=
    match cs with
    | '-' :: rest => (['-'], rest)
    | _ => (([] : List Char), cs)
  let intPart := cs1.takeWhile isDig
  let cs2 := cs1.dropWhile isDig
  if intPart = [] then none
  else if intPart.length > 1 ∧ intPart.head? = some '0' then none
  else
    let (fracPart, cs3) :=
      match cs2 with
      | '.' :: rest =>
        let ds := rest.takeWhile isDig
        if ds = [] then (([] : List Char), cs2)
        else ('.' :: ds, rest.dropWhile isDig)
      | _ => (([] : List Char), cs2)
    let (expPart, cs4) :=
      match cs3 with
      | e :: rest =>
        if e = 'e' ∨ e = 'E' then
          let (es, rest2) :=
            match rest with
            | s :: r2 => if s = '+' ∨ s = '-' then ([e, s], r2) else ([e], rest)
            | [] => ([e], rest)
          let ds := rest2.takeWhile isDig
          if ds = [] then (([] : List Char), cs3)
          else (es ++ ds, rest2.dropWhile isDig)
        else (([] : List Char), cs3)
      | [] => (([] : List Char), cs3)
    some (sign ++ intPart ++ fracPart ++ expPart, cs4)

/-- Insert a key into an association list the way a Python dict does:
an existing key is updated in place, a new key is appended. -/
def objInsert (kvs : List (String × JVal)) (k : String) (v : JVal) :
    List (String × JVal) :=
  match kvs with
  | [] => [(k, v)]
  | kv :: rest =>
    if kv.fst = k then (k, v) :: rest else kv :: objInsert rest k v

mutual

/-- Parse one JSON value (after the caller has decided not to skip
whitespace; pVal skips leading whitespace itself). -/
def pVal : Nat → List Char → Option (JVal × List Char)
  | 0, _ => none
  | fuel + 1, cs =>
    match skipWs cs with
    | [] => none
    | c :: rest =>
      if c = lbrace then
        match skipWs rest with
        | c2 :: rest2 =>
          if c2 = rbrace then some (JVal.jobj [], rest2)
          else pMembers fuel (c2 :: rest2) []
        | [] => none
      else if c = '[' then
        match skipWs rest with
        | ']' :: rest2 => some (JVal.jarr [], rest2)
        | other => pElems fuel other []
      else if c = '"' then
        match pStr (rest.length + 1) rest with
        | some (body, rem) => some (JVal.jstr (String.mk body), rem)
        | none => none
      else if c = 't' then
        match rest with
        | 'r' :: 'u' :: 'e' :: rem => some (JVal.jbool true, rem)
        | _ => none
      else if c = 'f' then
        match rest with
        | 'a' :: 'l' :: 's' :: 'e' :: rem => some (JVal.jbool false, rem)
        | _ => none
      else if c = 'n' then
        match rest with
        | 'u' :: 'l' :: 'l' :: rem => some (JVal.jnull, rem)
        | _ => none
      else
        match pNum (c :: rest) with
        | some (lexeme, rem) => some (JVal.jnum (String.mk lexeme), rem)
        | none => none

/-- Parse object members; the input starts at a key string. -/
def pMembers : Nat → List Char → List (String × JVal) → Option (JVal × List Char)
  | 0, _, _ => none
  | fuel + 1, cs, acc =>
    match cs with
    | '"' :: rest =>
      match pStr (rest.length + 1) rest with
      | none => none
      | some (key, rem) =>
        match skipWs rem with
        | ':' :: rem2 =>
          match pVal fuel rem2 with
          | none => none
          | some (v, rem3) =>
            let acc2 := objInsert acc (String.mk key) v
            match skipWs rem3 with
            | c :: rem4 =>
              if c = rbrace then some (JVal.jobj acc2, rem4)
              else if c = ',' then pMembers fuel (skipWs rem4) acc2
              else none
            | [] => none
        | _ => none
    | _ => none

/-- Parse array elements; the input starts at the first element. -/
def pElems : Nat → List Char → List JVal → Option (JVal × List Char)
  | 0, _, _ => none
  | fuel + 1, cs, acc =>
    match pVal fuel cs with
    | none => none
    | some (v, rem) =>
      match skipWs rem with
      | ']' :: rem2 => some (JVal.jarr (acc ++ [v]), rem2)
      | ',' :: rem2 => pElems fuel rem2 (acc ++ [v])
      | _ => none

end

/-- Model of Python json.loads: parse a complete JSON document, requiring
the whole input (modulo surrounding whitespace) to be consumed. -/
def json_loads (s : String) : Option JVal :=
  match pVal (2 * s.length + 2) s.toList with
  | some (v, rest) => if skipWs rest = [] then some v else none
  | none => none

/-!
Regex embedding for the two extraction patterns of orchestrator.py:
MARKDOWN_JSON_RE and RAW_JSON_RE, both compiled with DOTALL and used via
search (leftmost match; lazy and greedy repetition with backtracking).
-/

/-- Whitespace class of the regex engine (ASCII fragment of Python's
backslash-s). -/
def reWs (c : Char) : Bool :=
  c = ' ' || c = '\t' || c = '\n' || c = '\r' ||
  c = Char.ofNat 11 || c = Char.ofNat 12

/-- Match a literal character sequence, returning the remainder. -/
def dropLit : List Char → List Char → Option (List Char)
  | [], cs => some cs
  | _ :: _, [] => none
  | l :: ls, c :: cs => if c = l then dropLit ls cs else none

/-- The three-backtick fence delimiter. -/
def tick3 : List Char := "```".toList

/-- After the lazily matched body's closing brace, the pattern requires
optional whitespace and a closing fence. -/
def fenceTailOk (cs : List Char) : Bool :=
  (dropLit tick3 (cs.dropWhile reWs)).isSome

/-- Scan the lazy body of the fenced pattern: the repetition stops at the
first closing brace from which the rest of the pattern matches
(backtracking semantics of a lazy dot-star followed by a brace). -/
def fenceBody (acc : List Char) : List Char → Option (List Char)
  | [] => none
  | c :: rest =>
    if c = rbrace ∧ fenceTailOk rest then some acc.reverse
    else fenceBody (c :: acc) rest

/-- Match the fenced pattern from the point right after the opening fence
(and the optional json tag): optional whitespace, an opening brace, the
lazy body, a closing brace.  Returns capture group 1. -/
def fenceFrom (cs : List Char) : Option (List Char) :=
  match cs.dropWhile reWs with
  | c :: rest =>
    if c = lbrace then
      (fenceBody [] rest).map (fun body => lbrace :: (body ++ [rbrace]))
    else none
  | [] => none

/-- Match MARKDOWN_JSON_RE at one position.  The optional json tag is
greedy: the engine first tries with the tag consumed, then without. -/
def matchFenceAt (cs : List Char) : Option (List Char) :=
  match dropLit tick3 cs with
  | none => none
  | some r =>
    match dropLit "json".toList r with
    | some r2 => fenceFrom r2 <|> fenceFrom r
    | none => fenceFrom r

/-- search for MARKDOWN_JSON_RE: leftmost position with a match wins;
returns capture group 1. -/
def searchFence : List Char → Option (List Char)
  | [] => none
  | c :: rest => matchFenceAt (c :: rest) <|> searchFence rest

/-- Greedy tail of RAW_JSON_RE: the prefix of the input running through
its last closing brace (dot-star is greedy, so the final brace of the
match is the last one available). -/
def upToLastRB : List Char → Option (List Char)
  | [] => none
  | c :: cs =>
    match upToLastRB cs with
    | some t => some (c :: t)
    | none => if c = rbrace then some [c] else none

/-- Match RAW_JSON_RE at one position: an opening brace, then greedily
everything through the last closing brace. -/
def matchRawAt : List Char → Option (List Char)
  | [] => none
  | c :: rest =>
    if c = lbrace then (upToLastRB rest).map (fun t => lbrace :: t)
    else none

/-- search for RAW_JSON_RE: leftmost position with a match wins. -/
def searchRaw : List Char → Option (List Char)
  | [] => none
  | c :: rest => matchRawAt (c :: rest) <|> searchRaw rest

/-- The raw fallback tier of extract_json (orchestrator.py lines
139-147): search RAW_JSON_RE, parse the capture, and raise on failure. -/
def rawExtract (text : String) : Except String JVal :=
  match searchRaw text.toList with
  | some g =>
    match json_loads (String.mk g) with
    | some v => Except.ok v
    | none => Except.error "JSON parse error"
  | none => Except.error "No JSON object found in output"

/-- extract_json (orchestrator.py lines 129-147): first try the markdown
fence pattern; if its capture fails to parse, fall back to the raw
pattern over the whole text. -/
def extract_json (text : String) : Except String JVal :=
  match searchFence text.toList with
  | some g =>
    match json_loads (String.mk g) with
    | some v => Except.ok v
    | none => rawExtract text
  | none => rawExtract text

/-!
WorkerInvoker (orchestrator.py call_worker, lines 150-177).  The
subprocess itself is external; its observable behaviour (timeout, or
completion with captured stdout, stderr and return code) is the input.
The embedding records which text, if any, is persisted to the output
artifact, and the call's result.
-/

/-- Observable behaviour of one worker subprocess invocation. -/
inductive WorkerRes where
  | timeout : WorkerRes
  | completed (stdout stderr : String) (returncode : Int) : WorkerRes

/-- Fatal outcomes of call_worker, each corresponding to one die site. -/
inductive WorkerErr where
  | timedOut : WorkerErr
  | nonZeroExit (code : Int) : WorkerErr
  | outputError (msg : String) : WorkerErr
deriving Repr, DecidableEq

/-- Result of call_worker: what was written to out_path (none when the
function died before reaching the write), and the control object or
fatal error. -/
structure CallWorkerResult where
  persisted : Option String
  result : Except WorkerErr JVal

/-- Python str.strip on its default whitespace set. -/
def pyWsChar (c : Char) : Bool :=
  c = ' ' || c = '\t' || c = '\n' || c = '\r' ||
  c = Char.ofNat 11 || c = Char.ofNat 12

/-- Python str.strip. -/
def pyStrip (s : String) : String :=
  String.mk (((s.toList.dropWhile pyWsChar).reverse.dropWhile pyWsChar).reverse)

/-- call_worker: a timeout dies before persisting anything; on
completion the combined output is persisted, then a non-zero exit dies,
then extraction failure dies, else the extracted object is returned. -/
def call_worker (res : WorkerRes) : CallWorkerResult :=
  match res with
  | WorkerRes.timeout =>
    { persisted := none, result := Except.error WorkerErr.timedOut }
  | WorkerRes.completed stdout stderr rc =>
    let combined := pyStrip stdout
    let persistText := combined ++ (if stderr ≠ "" then "\n" ++ stderr else "")
    if rc ≠ 0 then
      { persisted := some persistText, result := Except.error (WorkerErr.nonZeroExit rc) }
    else
      match extract_json combined with
      | Except.ok v => { persisted := some persistText, result := Except.ok v }
      | Except.error e =>
        { persisted := some persistText, result := Except.error (WorkerErr.outputError e) }

/-!
SchemaValidator (orchestrator.py validate_json, lines 68-75).  The
jsonschema library's iter_errors is external; the list of violations it
yields for the candidate object is the input.  A violation's path is
modelled as a list of naturals (the index path into the document), which
is the sort key the source uses.
-/

/-- One schema violation as yielded by the external validator. -/
structure VErr where
  path : List Nat
  message : String
deriving Repr, DecidableEq

/-- Strict lexicographic comparison on violation paths: the comparison
Python's sorted applies to the sort keys. -/
def pathLt : List Nat → List Nat → Bool
  | [], [] => false
  | [], _ :: _ => true
  | _ :: _, [] => false
  | a :: as, b :: bs => if a < b then true else if b < a then false else pathLt as bs

/-- Stable insertion of an element arriving after everything already in
the sorted list: it goes after every element it is not strictly less
than. -/
def pyInsert (lt : VErr → VErr → Bool) (x : VErr) : List VErr → List VErr
  | [] => [x]
  | y :: ys => if lt x y then x :: y :: ys else y :: pyInsert lt x ys

/-- The sorted violation list.  Python's sorted is the stable ascending
sort by the key's strict comparison, which is computed uniquely by
left-to-right stable insertion. -/
def sorted_errors (errors : List VErr) : List VErr :=
  errors.foldl (fun acc e => pyInsert (fun e1 e2 => pathLt e1.path e2.path) e acc) []

/-- The violations that actually make it into the report: the first 20
of the sorted list. -/
def reported_errors (errors : List VErr) : List VErr :=
  (sorted_errors errors).take 20

/-- One line of the validation report. -/
def errLine (e : VErr) : String :=
  let pathStr :=
    if e.path = [] then "<root>"
    else String.intercalate "." (e.path.map toString)
  " - " ++ pathStr ++ ": " ++ e.message

/-- validate_json: none means the object is accepted; some msg means the
run dies with that diagnostic, built from at most the first 20 sorted
violations. -/
def validate_json (errors : List VErr) : Option String :=
  let es := sorted_errors errors
  if es.isEmpty then none
  else
    some (String.intercalate "\n"
      ("JSON failed schema validation:" :: (es.take 20).map errLine))

/-!
WritePolicyEnforcer (orchestrator.py check_write_paths, lines 98-108).
Changed paths arrive already in repo-relative forward-slash form (the
relative_to/as_posix conversion is pathlib, external to the logic being
checked); the prefix lists are normalized exactly as the source does.
-/

/-- check_write_paths: none means every changed path passes; some msg is
the first violation's diagnostic.  Forbidden is checked first, then the
allow-list, which only restricts when non-empty. -/
def checkPathsGo (allowedN forbiddenN : List String) : List String → Option String
  | [] => none
  | rel :: rest =>
    if forbiddenN.any (fun p => rel.startsWith p) then
      some ("Write policy violation: attempted change in forbidden path: " ++ rel)
    else if ¬ allowedN.isEmpty ∧ ¬ allowedN.any (fun p => rel.startsWith p) then
      some ("Write policy violation: attempted change outside allowed paths: " ++ rel)
    else checkPathsGo allowedN forbiddenN rest

/-- check_write_paths with the source's backslash-to-slash normalization
of both prefix lists. -/
def check_write_paths (changed : List String) (allowed forbidden : List String) :
    Option String :=
  let allowedN := allowed.map (fun a => a.replace "\\" "/")
  let forbiddenN := forbidden.map (fun f => f.replace "\\" "/")
  checkPathsGo allowedN forbiddenN changed

/-!
GateRunner and the authoritative verify control object (orchestrator.py
lines 297-333).  Command execution is external; the exit code each named
gate command would produce is the input.
-/

/-- One entry of the checks report (a GateCheckResult). -/
structure GateCheck where
  name : String
  command : String
  exit_code : Int
  output_ref : String
deriving Repr, DecidableEq

/-- Lookup in the [commands] table. -/
def lookupCmd (commands : List (String × String)) (name : String) : Option String :=
  (commands.find? (fun kv => kv.fst == name)).map (fun kv => kv.snd)

/-- Run the required gate checks in order: a missing or empty command is
a fatal configuration error naming the check; otherwise each check
records its command, exit code and log reference, and a non-zero exit
appends a failure line. -/
def run_gates (commands : List (String × String)) (exitOf : String → Int)
    (iter : Nat) : List String → Except String (List GateCheck × List String)
  | [] => Except.ok ([], [])
  | name :: rest =>
    match lookupCmd commands name with
    | none => Except.error name
    | some cmd =>
      if cmd = "" then Except.error name
      else
        let ec := exitOf name
        match run_gates commands exitOf iter rest with
        | Except.error e => Except.error e
        | Except.ok (cs, fs) =>
          Except.ok
            ({ name := name, command := cmd, exit_code := ec,
               output_ref := "verify/iter_" ++ toString iter ++
                 "/gate_outputs/" ++ name ++ ".log" } :: cs,
             if ec ≠ 0 then
               (name ++ " failed (exit " ++ toString ec ++ ")") :: fs
             else fs)

/-- Evidence entry of the verify control object. -/
structure Evidence where
  kind : String
  ref : String
  note : String
deriving Repr, DecidableEq

/-- Python dict get with a default, on a JSON object. -/
def jGet (obj : JVal) (key : String) (dflt : JVal) : JVal :=
  match obj with
  | JVal.jobj kvs =>
    match kvs.find? (fun kv => kv.fst == key) with
    | some kv => kv.snd
    | none => dflt
  | _ => dflt

/-- The authoritative verify control object rebuilt from gate results
(orchestrator.py lines 322-331); only the narration field is taken from
the worker's control object. -/
structure VerifyControl where
  phase : String
  checks : List GateCheck
  all_passed : Bool
  failures : List String
  evidence : List Evidence
  narration : JVal
deriving Repr

/-- mk verify control from the worker control object and gate results. -/
def mk_verify_control (control : JVal) (checks_report : List GateCheck)
    (failures : List String) : VerifyControl :=
  { phase := "verify"
  , checks := checks_report
  , all_passed := failures.isEmpty
  , failures := failures
  , evidence := checks_report.map
      (fun c => { kind := "command_output", ref := c.output_ref, note := "Gate output" })
  , narration := jGet control "narration" (JVal.jstr "") }

/-!
PhaseStateMachine (orchestrator.py main, lines 252-342).  Configuration
is loaded once and immutable; the per-entry behaviour of the external
world (the worker subprocess, the jsonschema validator, git's changed
file list, gate command exit codes, schema file existence) is an oracle
indexed by entry ordinal.  Artifact writes are I/O and not part of the
machine state.
-/

/-- The run configuration (spec.toml contents relevant to the loop). -/
structure OrchConfig where
  phases : List String
  maxTotal : Nat
  maxPhase : Nat
  allowWrites : Bool
  allowedWritePaths : List String
  forbidWritePaths : List String
  commands : List (String × String)
  requiredChecks : List String

/-- External behaviour during one phase entry. -/
structure EntryEnv where
  schemaOk : Bool
  workerResult : WorkerRes
  violations : List VErr
  changedPaths : List String
  gateExit : String → Int
  verifyViolations : List VErr

/-- Mutable state of the loop: the phase cursor and the RunContext
counters.  phase iteration counts are a dict keyed by phase id. -/
structure MachineState where
  currentPhaseIndex : Nat
  totalIterations : Nat
  phaseIterations : List (String × Nat)
deriving Repr, DecidableEq

/-- dict get with default 0. -/
def getIter (m : List (String × Nat)) (k : String) : Nat :=
  match m.find? (fun kv => kv.fst == k) with
  | some kv => kv.snd
  | none => 0

/-- dict assignment: update in place or append. -/
def setIter (m : List (String × Nat)) (k : String) (v : Nat) : List (String × Nat) :=
  match m with
  | [] => [(k, v)]
  | kv :: rest => if kv.fst = k then (k, v) :: rest else kv :: setIter rest k v

/-- The fatal abort conditions, one per die site reachable from the
loop. -/
inductive AbortKind where
  | totalLimit : AbortKind
  | phaseLimit (phaseId : String) : AbortKind
  | workerTimeout : AbortKind
  | workerNonZero (code : Int) : AbortKind
  | workerOutputError (msg : String) : AbortKind
  | schemaNotFound : AbortKind
  | schemaValidation (msg : String) : AbortKind
  | writePolicy (msg : String) : AbortKind
  | missingGateCommand (name : String) : AbortKind
deriving Repr, DecidableEq

/-- Result of one pass through the while body: continue looping with a
new state, die with a diagnostic (abort), or raise an unhandled Python
exception (crash).  Each carries the state at that moment. -/
inductive StepResult where
  | next (st : MachineState) : StepResult
  | aborted (k : AbortKind) (st : MachineState) : StepResult
  | crashed (msg : String) (st : MachineState) : StepResult
deriving Repr, DecidableEq

/-- The verify phase's advance-or-loop-back decision (orchestrator.py
lines 335-342): when the authoritative control object reports failure,
the cursor is set to the index of the phase with id implement; a missing
implement phase raises an unhandled ValueError (Python list.index). -/
def loopBackOrAdvance (cfg : OrchConfig) (vc : VerifyControl) (st : MachineState) :
    StepResult :=
  match vc.all_passed with
  | false =>
    match cfg.phases.findIdx? (fun p => p == "implement") with
    | some i => StepResult.next { st with currentPhaseIndex := i }
    | none => StepResult.crashed "ValueError: implement is not in list" st
  | true =>
    StepResult.next { st with currentPhaseIndex := st.currentPhaseIndex + 1 }

/-- The body of a phase entry after the iteration counters have been
updated and checked (orchestrator.py lines 266-342): worker call,
schema load and validation, write-policy enforcement, and the verify
phase's gate run with authoritative control rebuild and loop-back. -/
def stepBody (cfg : OrchConfig) (e : EntryEnv) (phase_id : String) (iterNum : Nat)
    (st : MachineState) : StepResult :=
  match (call_worker e.workerResult).result with
  | Except.error WorkerErr.timedOut => StepResult.aborted AbortKind.workerTimeout st
  | Except.error (WorkerErr.nonZeroExit c) => StepResult.aborted (AbortKind.workerNonZero c) st
  | Except.error (WorkerErr.outputError m) => StepResult.aborted (AbortKind.workerOutputError m) st
  | Except.ok control =>
    if ¬ e.schemaOk then StepResult.aborted AbortKind.schemaNotFound st
    else
      match validate_json e.violations with
      | some m => StepResult.aborted (AbortKind.schemaValidation m) st
      | none =>
        let writeCheck :=
          if cfg.allowWrites ∧ ¬ e.changedPaths.isEmpty then
            check_write_paths e.changedPaths cfg.allowedWritePaths cfg.forbidWritePaths
          else none
        match writeCheck with
        | some m => StepResult.aborted (AbortKind.writePolicy m) st
        | none =>
          if phase_id = "verify" then
            match run_gates cfg.commands e.gateExit iterNum cfg.requiredChecks with
            | Except.error name => StepResult.aborted (AbortKind.missingGateCommand name) st
            | Except.ok (report, failures) =>
              let vc := mk_verify_control control report failures
              match validate_json e.verifyViolations with
              | some m => StepResult.aborted (AbortKind.schemaValidation m) st
              | none => loopBackOrAdvance cfg vc st
          else
            StepResult.next { st with currentPhaseIndex := st.currentPhaseIndex + 1 }

/-- One pass through the while body (orchestrator.py lines 254-342):
the total-iteration ceiling is checked first, then the phase is selected,
its iteration counter incremented and checked, the total counter
incremented, and the body run. -/
def stepEntry (cfg : OrchConfig) (e : EntryEnv) (st : MachineState) : StepResult :=
  if st.totalIterations ≥ cfg.maxTotal then
    StepResult.aborted AbortKind.totalLimit st
  else
    match cfg.phases[st.currentPhaseIndex]? with
    | none => StepResult.crashed "IndexError: list index out of range" st
    | some phase_id =>
      let iterNum := getIter st.phaseIterations phase_id + 1
      let st1 := { st with phaseIterations := setIter st.phaseIterations phase_id iterNum }
      if iterNum > cfg.maxPhase then
        StepResult.aborted (AbortKind.phaseLimit phase_id) st1
      else
        let st2 := { st1 with totalIterations := st1.totalIterations + 1 }
        stepBody cfg e phase_id iterNum st2

/-- Outcome of a whole run. -/
inductive RunOutcome where
  | finished (st : MachineState) : RunOutcome
  | aborted (k : AbortKind) (st : MachineState) : RunOutcome
  | crashed (msg : String) (st : MachineState) : RunOutcome
  | outOfFuel (st : MachineState) : RunOutcome
deriving Repr, DecidableEq

/-- The while loop: while the cursor is inside the phase sequence, take
one entry; fuel bounds the number of passes (the source loop may run
forever only through external behaviour, which fuel makes finite). -/
def runLoop (cfg : OrchConfig) (env : Nat → EntryEnv) :
    Nat → Nat → MachineState → RunOutcome
  | 0, _, st => RunOutcome.outOfFuel st
  | fuel + 1, n, st =>
    if st.currentPhaseIndex < cfg.phases.length then
      match stepEntry cfg (env n) st with
      | StepResult.next st2 => runLoop cfg env fuel (n + 1) st2
      | StepResult.aborted k st2 => RunOutcome.aborted k st2
      | StepResult.crashed m st2 => RunOutcome.crashed m st2
    else RunOutcome.finished st

/-- Initial RunContext counters and cursor. -/
def initState : MachineState :=
  { currentPhaseIndex := 0, totalIterations := 0, phaseIterations := [] }

/-- The state carried by an outcome. -/
def RunOutcome.state : RunOutcome → MachineState
  | RunOutcome.finished st => st
  | RunOutcome.aborted _ st => st
  | RunOutcome.crashed _ st => st
  | RunOutcome.outOfFuel st => st

/-- The state carried by a step result. -/
def StepResult.state : StepResult → MachineState
  | StepResult.next st => st
  | StepResult.aborted _ st => st
  | StepResult.crashed _ st => st

/-- Total number of phase entries recorded in the RunContext: the sum of
all per-phase iteration counters. -/
def entriesCount (st : MachineState) : Nat :=
  (st.phaseIterations.map (fun kv => kv.snd)).sum

/-- Whether a step died at one of the two iteration-limit checks. -/
def isLimitAbort : StepResult → Bool
  | StepResult.aborted AbortKind.totalLimit _ => true
  | StepResult.aborted (AbortKind.phaseLimit _) _ => true
  | _ => false

/-- A benign per-entry environment: the worker prints one small JSON
object and exits 0, validation passes, the working tree is untouched,
every gate command exits 1. -/
def envC1 : EntryEnv :=
  { schemaOk := true
  , workerResult := WorkerRes.completed "\x7b\"ok\": true\x7d" "" 0
  , violations := []
  , changedPaths := []
  , gateExit := fun _ => 1
  , verifyViolations := [] }

/-- The three-phase scenario of the spec: phases plan, implement,
verify; one required gate whose command always fails; per-phase limit n,
total limit m. -/
def cfgC1 (n m : Nat) : OrchConfig :=
  { phases := ["plan", "implement", "verify"]
  , maxTotal := m
  , maxPhase := n
  , allowWrites := true
  , allowedWritePaths := []
  , forbidWritePaths := []
  , commands := [("gate", "false")]
  , requiredChecks := ["gate"] }

/-- Machine state right after the k-th verify gate failure looped the
cursor back to implement. -/
def stFailC1 (k : Nat) : MachineState :=
  ⟨1, 2*k+1, [("plan", 1), ("implement", k), ("verify", k)]⟩

/-- Machine state at the moment the scenario aborts: implement has been
entered n+1 times, verify n times. -/
def stAbortC1 (n : Nat) : MachineState :=
  ⟨1, 2*n+1, [("plan", 1), ("implement", n+1), ("verify", n)]⟩

/-- Single-phase configuration used to exhibit the counter behaviour of
a limit-aborted entry. -/
def cfgC3 : OrchConfig :=
  { phases := ["implement"]
  , maxTotal := 25
  , maxPhase := 2
  , allowWrites := true
  , allowedWritePaths := []
  , forbidWritePaths := []
  , commands := []
  , requiredChecks := [] }

/-- A state about to enter implement for the third time. -/
def stC3 : MachineState :=
  ⟨0, 5, [("implement", 2)]⟩

/-- Configuration with writes disabled and a forbidden path configured. -/
def cfgC9 : OrchConfig :=
  { phases := ["plan"]
  , maxTotal := 25
  , maxPhase := 6
  , allowWrites := false
  , allowedWritePaths := []
  , forbidWritePaths := ["src/"]
  , commands := []
  , requiredChecks := [] }

/-- Environment in which the worker changed a file under the forbidden
path. -/
def envC9 : EntryEnv :=
  { envC1 with changedPaths := ["src/x.py"] }

/-- Configuration whose phase sequence has a verify phase but no phase
with id implement. -/
def cfgC10 : OrchConfig :=
  { phases := ["plan", "verify"]
  , maxTotal := 25
  , maxPhase := 6
  , allowWrites := true
  , allowedWritePaths := []
  , forbidWritePaths := []
  , commands := [("gate", "false")]
  , requiredChecks := ["gate"] }

/-- State entering the verify phase of cfgC10. -/
def stC10 : MachineState :=
  ⟨1, 1, [("plan", 1)]⟩

/-- Twenty-one distinct schema violations. -/
def errs21 : List VErr :=
  (List.range 21).map (fun i => { path := [i], message := "bad" })

/-- The gate check record produced in the cfgC10 scenario. -/
def gateCheckW : GateCheck :=
  { name := "gate", command := "false", exit_code := 1
  , output_ref := "verify/iter_1/gate_outputs/gate.log" }

/-!
Theorems.  Each claim Cx of the specification gets one theorem (plus a
counterexample where the claim as stated fails, and a witness where the
theorem carries hypotheses).
-/

/-- Generic successful phase entry in the three-phase scenario: if
neither limit is hit, the entry updates both counters and runs the
body. -/
theorem C1_step_gen (n m t k : Nat) (pid : String) (pis pis2 : List (String × Nat))
    (idx : Nat) (res : StepResult)
    (hidx : (cfgC1 n m).phases[idx]? = some pid)
    (ht : t < m) (hk : k + 1 ≤ n)
    (hget : getIter pis pid = k) (hset : setIter pis pid (k+1) = pis2)
    (hbody : stepBody (cfgC1 n m) envC1 pid (k+1) ⟨idx, t+1, pis2⟩ = res) :
    stepEntry (cfgC1 n m) envC1 ⟨idx, t, pis⟩ = res := by
  unfold stepEntry
  split
  · rename_i h
    exfalso
    simp only [cfgC1] at h
    omega
  · split
    · rename_i heq
      rw [hidx] at heq
      exact Option.noConfusion heq
    · rename_i pid2 heq
      rw [hidx] at heq
      injection heq with heq2
      subst heq2
      rw [hget]
      simp only [hset]
      rw [if_neg (show ¬ (k + 1 > (cfgC1 n m).maxPhase) from by show ¬ (k + 1 > n); omega)]
      exact hbody

/-- Phase entry that trips the per-phase iteration limit: the phase
counter is still bumped, the total counter is not, and the run dies
naming the phase. -/
theorem C1_step_abort (n m t k : Nat) (pid : String) (pis pis2 : List (String × Nat))
    (idx : Nat)
    (hidx : (cfgC1 n m).phases[idx]? = some pid)
    (ht : t < m) (hk : k + 1 > n)
    (hget : getIter pis pid = k) (hset : setIter pis pid (k+1) = pis2) :
    stepEntry (cfgC1 n m) envC1 ⟨idx, t, pis⟩
      = StepResult.aborted (AbortKind.phaseLimit pid) ⟨idx, t, pis2⟩ := by
  unfold stepEntry
  split
  · rename_i h
    exfalso
    simp only [cfgC1] at h
    omega
  · split
    · rename_i heq
      rw [hidx] at heq
      exact Option.noConfusion heq
    · rename_i pid2 heq
      rw [hidx] at heq
      injection heq with heq2
      subst heq2
      rw [hget]
      simp only [hset]
      rw [if_pos (show k + 1 > (cfgC1 n m).maxPhase from by show k + 1 > n; omega)]

/-- One repair cycle: from the state just after the k-th verify failure,
the machine re-enters implement, re-enters verify, the gate fails again,
and the cursor loops back. -/
theorem C1_cycle (n m k fuel j : Nat) (hkn : k < n) (hm : 2*n+2 ≤ m) :
    runLoop (cfgC1 n m) (fun _ => envC1) (fuel + 2) j (stFailC1 k)
      = runLoop (cfgC1 n m) (fun _ => envC1) fuel (j + 2) (stFailC1 (k+1)) := by
  have e1 : stepEntry (cfgC1 n m) envC1 (stFailC1 k)
      = StepResult.next ⟨2, 2*k+2, [("plan", 1), ("implement", k+1), ("verify", k)]⟩ :=
    C1_step_gen n m (2*k+1) k "implement"
      [("plan", 1), ("implement", k), ("verify", k)]
      [("plan", 1), ("implement", k+1), ("verify", k)] 1 _
      rfl (by omega) (by omega) rfl rfl rfl
  have e2 : stepEntry (cfgC1 n m) envC1 ⟨2, 2*k+2, [("plan", 1), ("implement", k+1), ("verify", k)]⟩
      = StepResult.next ⟨1, 2*k+3, [("plan", 1), ("implement", k+1), ("verify", k+1)]⟩ :=
    C1_step_gen n m (2*k+2) k "verify"
      [("plan", 1), ("implement", k+1), ("verify", k)]
      [("plan", 1), ("implement", k+1), ("verify", k+1)] 2 _
      rfl (by omega) (by omega) rfl rfl rfl
  conv_lhs => rw [runLoop]
  rw [if_pos (show (stFailC1 k).currentPhaseIndex < (cfgC1 n m).phases.length from by
    show (1:Nat) < 3; decide)]
  simp only [e1]
  show runLoop (cfgC1 n m) (fun _ => envC1) (fuel + 1) (j + 1)
      ⟨2, 2*k+2, [("plan", 1), ("implement", k+1), ("verify", k)]⟩ = _
  conv_lhs => rw [runLoop]
  rw [if_pos (show (2 : Nat) < (cfgC1 n m).phases.length from by show (2:Nat) < 3; decide)]
  simp only [e2]
  rfl

/-- The first forward pass of the scenario: plan, implement and verify
are each entered once, the gate fails, and the cursor loops back to
implement. -/
theorem C1_prologue (n m fuel : Nat) (hn : 1 ≤ n) (hm : 2*n+2 ≤ m) :
    runLoop (cfgC1 n m) (fun _ => envC1) (fuel + 3) 0 initState
      = runLoop (cfgC1 n m) (fun _ => envC1) fuel 3 (stFailC1 1) := by
  have e1 : stepEntry (cfgC1 n m) envC1 initState
      = StepResult.next ⟨1, 1, [("plan", 1)]⟩ :=
    C1_step_gen n m 0 0 "plan" [] [("plan", 1)] 0 _
      rfl (by omega) (by omega) rfl rfl rfl
  have e2 : stepEntry (cfgC1 n m) envC1 ⟨1, 1, [("plan", 1)]⟩
      = StepResult.next ⟨2, 2, [("plan", 1), ("implement", 1)]⟩ :=
    C1_step_gen n m 1 0 "implement" [("plan", 1)] [("plan", 1), ("implement", 1)] 1 _
      rfl (by omega) (by omega) rfl rfl rfl
  have e3 : stepEntry (cfgC1 n m) envC1 ⟨2, 2, [("plan", 1), ("implement", 1)]⟩
      = StepResult.next ⟨1, 3, [("plan", 1), ("implement", 1), ("verify", 1)]⟩ :=
    C1_step_gen n m 2 0 "verify" [("plan", 1), ("implement", 1)]
      [("plan", 1), ("implement", 1), ("verify", 1)] 2 _
      rfl (by omega) (by omega) rfl rfl rfl
  conv_lhs => rw [runLoop]
  rw [if_pos (show initState.currentPhaseIndex < (cfgC1 n m).phases.length from by
    show (0:Nat) < 3; decide)]
  simp only [e1]
  show runLoop (cfgC1 n m) (fun _ => envC1) (fuel + 2) 1 ⟨1, 1, [("plan", 1)]⟩ = _
  conv_lhs => rw [runLoop]
  rw [if_pos (show (1 : Nat) < (cfgC1 n m).phases.length from by show (1:Nat) < 3; decide)]
  simp only [e2]
  show runLoop (cfgC1 n m) (fun _ => envC1) (fuel + 1) 2 ⟨2, 2, [("plan", 1), ("implement", 1)]⟩ = _
  conv_lhs => rw [runLoop]
  rw [if_pos (show (2 : Nat) < (cfgC1 n m).phases.length from by show (2:Nat) < 3; decide)]
  simp only [e3]
  rfl

/-- Iterating the repair cycle from the k-th failure until implement
trips its limit. -/
theorem C1_tail (n m : Nat) (hm : 2*n+2 ≤ m) :
    ∀ d k j, k + d = n → 1 ≤ k →
    runLoop (cfgC1 n m) (fun _ => envC1) (2*d + 1) j (stFailC1 k)
      = RunOutcome.aborted (AbortKind.phaseLimit "implement") (stAbortC1 n) := by
  intro d
  induction d with
  | zero =>
    intro k j hkd hk1
    have hkn : k = n := by omega
    subst hkn
    conv_lhs => rw [runLoop]
    rw [if_pos (show (stFailC1 k).currentPhaseIndex < (cfgC1 k m).phases.length from by
      show (1:Nat) < 3; decide)]
    have e1 : stepEntry (cfgC1 k m) envC1 (stFailC1 k)
        = StepResult.aborted (AbortKind.phaseLimit "implement")
            ⟨1, 2*k+1, [("plan", 1), ("implement", k+1), ("verify", k)]⟩ :=
      C1_step_abort k m (2*k+1) k "implement"
        [("plan", 1), ("implement", k), ("verify", k)]
        [("plan", 1), ("implement", k+1), ("verify", k)] 1
        rfl (by omega) (by omega) rfl rfl
    simp only [e1]
    rfl
  | succ d ih =>
    intro k j hkd hk1
    have hf : 2*(d+1) + 1 = (2*d + 1) + 2 := by omega
    rw [hf, C1_cycle n m k (2*d+1) j (by omega) hm]
    exact ih (k+1) (j+2) (by omega) (by omega)

/-- C1 counterexample: in the spec's own scenario (phases plan,
implement, verify; a single always-failing gate; per-phase limit 2;
default total limit 25), the run does abort after exactly 2 entries into
verify, but the IterationLimitExceeded abort references phase implement
(whose third entry trips the limit), not phase verify as the claim
states. -/
theorem C1_counterexample :
    runLoop (cfgC1 2 25) (fun _ => envC1) 6 0 initState
      = RunOutcome.aborted (AbortKind.phaseLimit "implement") (stAbortC1 2)
    ∧ AbortKind.phaseLimit "implement" ≠ AbortKind.phaseLimit "verify"
    ∧ getIter (stAbortC1 2).phaseIterations "verify" = 2 := by
  refine ⟨rfl, by decide, rfl⟩

/-- C1 (amended): with phases plan, implement, verify, an always-failing
verify gate, per-phase limit n ≥ 1 and total limit m ≥ 2n+2, the run
aborts with IterationLimitExceeded after exactly n entries into verify's
repair cycle — but the abort names the implement phase, whose (n+1)-th
entry trips the per-phase limit (the verify counter stands at exactly n
at the abort). -/
theorem C1_amended (n m : Nat) (hn : 1 ≤ n) (hm : 2*n + 2 ≤ m) :
    runLoop (cfgC1 n m) (fun _ => envC1) (2*n + 2) 0 initState
      = RunOutcome.aborted (AbortKind.phaseLimit "implement") (stAbortC1 n)
    ∧ getIter (stAbortC1 n).phaseIterations "verify" = n := by
  constructor
  · have hf : 2*n + 2 = (2*(n-1) + 1) + 3 := by omega
    rw [hf, C1_prologue n m (2*(n-1)+1) hn hm]
    exact C1_tail n m hm (n-1) 1 3 (by omega) (by omega)
  · rfl

/-- C1 witness: the amended statement instantiated at the spec scenario
n = 2, m = 25. -/
theorem C1_witness :
    (1 ≤ 2 ∧ 2*2 + 2 ≤ 25)
    ∧ (runLoop (cfgC1 2 25) (fun _ => envC1) (2*2 + 2) 0 initState
        = RunOutcome.aborted (AbortKind.phaseLimit "implement") (stAbortC1 2)
      ∧ getIter (stAbortC1 2).phaseIterations "verify" = 2) :=
  ⟨by decide, C1_amended 2 25 (by decide) (by decide)⟩

/-- The body of an entry never touches the iteration counters and never
produces a limit abort (helper for loopBackOrAdvance). -/
theorem loopBack_counters (cfg : OrchConfig) (vc : VerifyControl) (st : MachineState) :
    (loopBackOrAdvance cfg vc st).state.totalIterations = st.totalIterations
    ∧ (loopBackOrAdvance cfg vc st).state.phaseIterations = st.phaseIterations
    ∧ isLimitAbort (loopBackOrAdvance cfg vc st) = false := by
  unfold loopBackOrAdvance
  repeat' split
  all_goals simp [StepResult.state, isLimitAbort]

/-- The body of an entry never touches the iteration counters and never
produces a limit abort. -/
theorem stepBody_counters (cfg : OrchConfig) (e : EntryEnv) (pid : String) (i : Nat)
    (st : MachineState) :
    (stepBody cfg e pid i st).state.totalIterations = st.totalIterations
    ∧ (stepBody cfg e pid i st).state.phaseIterations = st.phaseIterations
    ∧ isLimitAbort (stepBody cfg e pid i st) = false := by
  unfold stepBody
  repeat' split
  all_goals
    try (rcases check_write_paths e.changedPaths cfg.allowedWritePaths cfg.forbidWritePaths with _ | m)
  all_goals
    first
    | exact loopBack_counters cfg _ st
    | simp [StepResult.state, isLimitAbort]

/-- C3 counterexample: entering a phase whose iteration counter already
stands at the limit aborts the run with the per-phase counter bumped but
total_iterations unchanged (5 before, 5 after), because the limit check
sits between the two counter updates. -/
theorem C3_counterexample :
    stepEntry cfgC3 envC1 stC3
      = StepResult.aborted (AbortKind.phaseLimit "implement") ⟨0, 5, [("implement", 3)]⟩
    ∧ (stepEntry cfgC3 envC1 stC3).state.totalIterations = stC3.totalIterations
    ∧ getIter (stepEntry cfgC3 envC1 stC3).state.phaseIterations "implement"
        = getIter stC3.phaseIterations "implement" + 1 := by
  refine ⟨rfl, rfl, rfl⟩

/-- C3 (amended): on every phase entry, total_iterations increases by
exactly one unless the entry aborts at an iteration-limit check (the
pre-entry total-limit check, or the per-phase limit check, which fires
before the total counter is incremented); a limit-aborting entry leaves
total_iterations unchanged. -/
theorem C3_amended (cfg : OrchConfig) (e : EntryEnv) (st : MachineState)
    (h : st.currentPhaseIndex < cfg.phases.length) :
    (stepEntry cfg e st).state.totalIterations
      = (if isLimitAbort (stepEntry cfg e st) then st.totalIterations
         else st.totalIterations + 1) := by
  unfold stepEntry
  split
  · simp [StepResult.state, isLimitAbort]
  · split
    · rename_i heq
      rw [List.getElem?_eq_none_iff] at heq
      omega
    · rename_i pid heq
      by_cases hph : getIter st.phaseIterations pid + 1 > cfg.maxPhase
      · simp only [if_pos hph]
        simp [StepResult.state, isLimitAbort]
      · simp only [if_neg hph]
        rw [(stepBody_counters cfg e pid _ _).1,
            (stepBody_counters cfg e pid _ _).2.2]
        simp

/-- C3 witness: the amended statement instantiated at the limit-abort
entry of the counterexample state. -/
theorem C3_witness :
    (stC3.currentPhaseIndex < cfgC3.phases.length)
    ∧ (stepEntry cfgC3 envC1 stC3).state.totalIterations
        = (if isLimitAbort (stepEntry cfgC3 envC1 stC3) then stC3.totalIterations
           else stC3.totalIterations + 1) :=
  ⟨by decide, C3_amended cfgC3 envC1 stC3 (by decide)⟩

/-- loopBackOrAdvance never aborts with a write-policy violation. -/
theorem loopBack_no_writePolicy (cfg : OrchConfig) (vc : VerifyControl) (st : MachineState)
    (msg : String) (st2 : MachineState) :
    loopBackOrAdvance cfg vc st ≠ StepResult.aborted (AbortKind.writePolicy msg) st2 := by
  unfold loopBackOrAdvance
  repeat' split
  all_goals simp

/-- With allow_file_writes false the entry body never produces a
write-policy abort: the enforcement call is gated on the flag. -/
theorem stepBody_no_writePolicy (cfg : OrchConfig) (e : EntryEnv) (pid : String) (i : Nat)
    (st : MachineState) (hw : cfg.allowWrites = false) (msg : String) (st2 : MachineState) :
    stepBody cfg e pid i st ≠ StepResult.aborted (AbortKind.writePolicy msg) st2 := by
  unfold stepBody
  have hwc : (if cfg.allowWrites ∧ ¬ e.changedPaths.isEmpty then
      check_write_paths e.changedPaths cfg.allowedWritePaths cfg.forbidWritePaths
    else none) = none := by
    rw [if_neg]
    intro hand
    rw [hw] at hand
    exact Bool.false_ne_true hand.1
  rw [hwc]
  repeat' split
  all_goals first
    | exact loopBack_no_writePolicy cfg _ st msg st2
    | simp

/-- With allow_file_writes false a whole entry never produces a
write-policy abort. -/
theorem stepEntry_no_writePolicy (cfg : OrchConfig) (e : EntryEnv) (st : MachineState)
    (hw : cfg.allowWrites = false) (msg : String) (st2 : MachineState) :
    stepEntry cfg e st ≠ StepResult.aborted (AbortKind.writePolicy msg) st2 := by
  unfold stepEntry
  split
  · simp
  · split
    · simp
    · rename_i pid heq
      by_cases hph : getIter st.phaseIterations pid + 1 > cfg.maxPhase
      · simp only [if_pos hph]
        simp
      · simp only [if_neg hph]
        exact stepBody_no_writePolicy cfg e _ _ _ hw msg st2

/-- C9: when the policy flag allow_file_writes is false, no run ever
aborts with a WritePolicyViolation — enforcement is skipped for every
phase, whatever the worker changed and whatever the prefix lists say. -/
theorem C9_theorem (cfg : OrchConfig) (env : Nat → EntryEnv) (hw : cfg.allowWrites = false) :
    ∀ (fuel n : Nat) (st : MachineState) (msg : String) (st2 : MachineState),
      runLoop cfg env fuel n st ≠ RunOutcome.aborted (AbortKind.writePolicy msg) st2 := by
  intro fuel
  induction fuel with
  | zero =>
    intro n st msg st2
    simp [runLoop]
  | succ fuel ih =>
    intro n st msg st2
    rw [runLoop]
    split
    · cases hstep : stepEntry cfg (env n) st with
      | next st3 =>
        simp only [hstep]
        exact ih (n+1) st3 msg st2
      | aborted k st3 =>
        simp only [hstep]
        intro hcontra
        injection hcontra with hk hst
        exact stepEntry_no_writePolicy cfg (env n) st hw msg st3 (by rw [hstep, hk])
      | crashed m st3 =>
        simp only [hstep]
        simp
    · simp

/-- C9 witness: a run whose worker modified a file under a forbidden
prefix still cannot abort with a write-policy violation when the flag is
off. -/
theorem C9_witness :
    cfgC9.allowWrites = false
    ∧ runLoop cfgC9 (fun _ => envC9) 3 0 initState
        ≠ RunOutcome.aborted
            (AbortKind.writePolicy
              "Write policy violation: attempted change in forbidden path: src/x.py")
            initState :=
  ⟨rfl, C9_theorem cfgC9 (fun _ => envC9) rfl 3 0 initState
    "Write policy violation: attempted change in forbidden path: src/x.py" initState⟩

/-- Python list.index finds nothing when the element is absent. -/
theorem findIdx_implement_none (phases : List String) (h : "implement" ∉ phases) :
    ∀ i : Nat, List.findIdx? (fun p => p == "implement") phases i = none := by
  induction phases with
  | nil => intro i; rfl
  | cons p rest ih =>
    intro i
    rw [List.findIdx?_cons]
    rw [if_neg (show ¬ ((p == "implement") = true) from by
      intro hcontra
      exact h (List.mem_cons.mpr (Or.inl (eq_of_beq hcontra).symm)))]
    exact ih (fun hm => h (List.mem_cons_of_mem p hm)) (i + 1)

/-- Characterisation of one phase entry when neither limit is hit: both
counters are updated and the body decides the outcome. -/
theorem stepEntry_eq (cfg : OrchConfig) (e : EntryEnv) (t k : Nat) (pid : String)
    (pis pis2 : List (String × Nat)) (idx : Nat) (res : StepResult)
    (hidx : cfg.phases[idx]? = some pid)
    (ht : t < cfg.maxTotal) (hk : k + 1 ≤ cfg.maxPhase)
    (hget : getIter pis pid = k) (hset : setIter pis pid (k+1) = pis2)
    (hbody : stepBody cfg e pid (k+1) ⟨idx, t+1, pis2⟩ = res) :
    stepEntry cfg e ⟨idx, t, pis⟩ = res := by
  unfold stepEntry
  split
  · rename_i h
    exact absurd h (show ¬ ((⟨idx, t, pis⟩ : MachineState).totalIterations ≥ cfg.maxTotal) from by
      show ¬ (t ≥ cfg.maxTotal); omega)
  · split
    · rename_i heq
      rw [hidx] at heq
      exact Option.noConfusion heq
    · rename_i pid2 heq
      rw [hidx] at heq
      injection heq with heq2
      subst heq2
      rw [hget]
      simp only [hset]
      rw [if_neg (show ¬ (k + 1 > cfg.maxPhase) from by omega)]
      exact hbody

/-- A verify entry whose gates fail crashes with ValueError when the
phase sequence has no implement phase (the loop-back target lookup). -/
theorem stepBody_verify_crash (cfg : OrchConfig) (e : EntryEnv) (i : Nat)
    (st2 : MachineState) (c : JVal) (rep : List GateCheck) (fails : List String)
    (hworker : (call_worker e.workerResult).result = Except.ok c)
    (hschema : e.schemaOk = true)
    (hviol : e.violations = [])
    (hch : e.changedPaths = [])
    (hnoimpl : "implement" ∉ cfg.phases)
    (hgates : run_gates cfg.commands e.gateExit i cfg.requiredChecks = Except.ok (rep, fails))
    (hfails : fails ≠ [])
    (hvviol : e.verifyViolations = []) :
    stepBody cfg e "verify" i st2
      = StepResult.crashed "ValueError: implement is not in list" st2 := by
  unfold stepBody
  split
  · rename_i heq
    rw [hworker] at heq
    exact Except.noConfusion heq
  · rename_i k heq
    rw [hworker] at heq
    exact Except.noConfusion heq
  · rename_i m heq
    rw [hworker] at heq
    exact Except.noConfusion heq
  · rename_i ctrl heq
    rw [hworker] at heq
    injection heq with hc
    subst hc
    rw [if_neg (not_not_intro hschema)]
    split
    · rename_i msg heq2
      rw [hviol] at heq2
      exact Option.noConfusion ((show validate_json ([] : List VErr) = none from rfl) ▸ heq2)
    · split
      · rename_i heq3
        rw [hch] at heq3
        exact absurd rfl heq3.2
      · rw [if_pos rfl]
        split
        · rename_i err heq4
          rw [hgates] at heq4
          exact Except.noConfusion heq4
        · rename_i cs fs heq4
          rw [hgates] at heq4
          injection heq4 with hpair
          rw [Prod.mk.injEq] at hpair
          obtain ⟨h6, h7⟩ := hpair
          subst h6
          subst h7
          split
          · rename_i msg heq5
            rw [hvviol] at heq5
            exact Option.noConfusion ((show validate_json ([] : List VErr) = none from rfl) ▸ heq5)
          · unfold loopBackOrAdvance
            have hap : (mk_verify_control c rep fails).all_passed = false := by
              cases fails with
              | nil => exact absurd rfl hfails
              | cons a t => rfl
            simp only [hap]
            rw [findIdx_implement_none cfg.phases hnoimpl 0]

/-- C10: when the verify phase's gates fail and no phase in the
configured sequence has id implement, the state machine raises an
unhandled ValueError (a crash) instead of dying with a one-line
diagnostic: the loop-back target lookup has no error handling. -/
theorem C10_theorem (cfg : OrchConfig) (e : EntryEnv) (st : MachineState)
    (c : JVal) (rep : List GateCheck) (fails : List String)
    (hidx : cfg.phases[st.currentPhaseIndex]? = some "verify")
    (hnoimpl : "implement" ∉ cfg.phases)
    (htot : st.totalIterations < cfg.maxTotal)
    (hph : getIter st.phaseIterations "verify" + 1 ≤ cfg.maxPhase)
    (hworker : (call_worker e.workerResult).result = Except.ok c)
    (hschema : e.schemaOk = true)
    (hviol : e.violations = [])
    (hch : e.changedPaths = [])
    (hgates : run_gates cfg.commands e.gateExit (getIter st.phaseIterations "verify" + 1)
        cfg.requiredChecks = Except.ok (rep, fails))
    (hfails : fails ≠ [])
    (hvviol : e.verifyViolations = []) :
    stepEntry cfg e st
      = StepResult.crashed "ValueError: implement is not in list"
          ⟨st.currentPhaseIndex, st.totalIterations + 1,
            setIter st.phaseIterations "verify" (getIter st.phaseIterations "verify" + 1)⟩ := by
  have hst : st = ⟨st.currentPhaseIndex, st.totalIterations, st.phaseIterations⟩ := rfl
  rw [hst]
  exact stepEntry_eq cfg e st.totalIterations (getIter st.phaseIterations "verify") "verify"
    st.phaseIterations
    (setIter st.phaseIterations "verify" (getIter st.phaseIterations "verify" + 1))
    st.currentPhaseIndex _ hidx htot hph rfl rfl
    (stepBody_verify_crash cfg e (getIter st.phaseIterations "verify" + 1) _ c rep fails
      hworker hschema hviol hch hnoimpl hgates hfails hvviol)

/-- C10 witness: a concrete two-phase run (plan, verify) with a failing
gate crashes on entering verify. -/
theorem C10_witness :
    (cfgC10.phases[stC10.currentPhaseIndex]? = some "verify"
      ∧ "implement" ∉ cfgC10.phases
      ∧ stC10.totalIterations < cfgC10.maxTotal
      ∧ getIter stC10.phaseIterations "verify" + 1 ≤ cfgC10.maxPhase
      ∧ (call_worker envC1.workerResult).result = Except.ok (JVal.jobj [("ok", JVal.jbool true)])
      ∧ envC1.schemaOk = true ∧ envC1.violations = [] ∧ envC1.changedPaths = []
      ∧ run_gates cfgC10.commands envC1.gateExit (getIter stC10.phaseIterations "verify" + 1)
          cfgC10.requiredChecks
          = Except.ok ([gateCheckW], ["gate failed (exit 1)"])
      ∧ (["gate failed (exit 1)"] : List String) ≠ []
      ∧ envC1.verifyViolations = [])
    ∧ stepEntry cfgC10 envC1 stC10
        = StepResult.crashed "ValueError: implement is not in list"
            ⟨stC10.currentPhaseIndex, stC10.totalIterations + 1,
              setIter stC10.phaseIterations "verify" (getIter stC10.phaseIterations "verify" + 1)⟩ :=
  ⟨⟨rfl, by decide, by decide, by decide, rfl, rfl, rfl, rfl, rfl, by decide, rfl⟩,
    C10_theorem cfgC10 envC1 stC10 (JVal.jobj [("ok", JVal.jbool true)])
      [gateCheckW] ["gate failed (exit 1)"]
      rfl (by decide) (by decide) (by decide) rfl rfl rfl rfl rfl (by decide) rfl⟩

/-- dict lookup at a matching head. -/
theorem getIter_cons_pos (kv : String × Nat) (rest : List (String × Nat)) (k : String)
    (h : kv.fst = k) : getIter (kv :: rest) k = kv.snd := by
  unfold getIter
  rw [List.find?_cons_of_pos rest (by simp [h])]

theorem getIter_cons_neg (kv : String × Nat) (rest : List (String × Nat)) (k : String)
    (h : ¬ kv.fst = k) : getIter (kv :: rest) k = getIter rest k := by
  unfold getIter
  rw [List.find?_cons_of_neg rest (by simp [h])]

/-- Incrementing one phase counter raises the counter sum by one. -/
theorem sum_setIter (pis : List (String × Nat)) (k : String) :
    ((setIter pis k (getIter pis k + 1)).map (fun kv => kv.snd)).sum
      = ((pis.map (fun kv => kv.snd)).sum) + 1 := by
  induction pis with
  | nil => rfl
  | cons kv rest ih =>
    by_cases hk : kv.fst = k
    · rw [getIter_cons_pos kv rest k hk]
      unfold setIter
      rw [if_pos hk]
      simp only [List.map_cons, List.sum_cons]
      omega
    · rw [getIter_cons_neg kv rest k hk]
      unfold setIter
      rw [if_neg hk]
      simp only [List.map_cons, List.sum_cons]
      omega

/-- One entry preserves the invariant linking the counter sum, the total
counter and the total ceiling. -/
theorem stepEntry_entries (cfg : OrchConfig) (e : EntryEnv) (st : MachineState)
    (h1 : entriesCount st = st.totalIterations)
    (h2 : st.totalIterations ≤ cfg.maxTotal) :
    entriesCount (stepEntry cfg e st).state ≤ cfg.maxTotal
    ∧ (∀ st2, stepEntry cfg e st = StepResult.next st2 →
        entriesCount st2 = st2.totalIterations ∧ st2.totalIterations ≤ cfg.maxTotal) := by
  unfold stepEntry
  split
  · constructor
    · simpa [StepResult.state] using (h1 ▸ h2)
    · intro st2 hcontra
      exact StepResult.noConfusion hcontra
  · rename_i hlt
    split
    · constructor
      · simpa [StepResult.state] using (h1 ▸ h2)
      · intro st2 hcontra
        exact StepResult.noConfusion hcontra
    · rename_i pid heq
      have hsum : ((setIter st.phaseIterations pid (getIter st.phaseIterations pid + 1)).map
          (fun kv => kv.snd)).sum = st.totalIterations + 1 := by
        rw [sum_setIter st.phaseIterations pid]
        unfold entriesCount at h1
        omega
      by_cases hph : getIter st.phaseIterations pid + 1 > cfg.maxPhase
      · simp only [if_pos hph]
        constructor
        · unfold entriesCount
          simp only [StepResult.state]
          rw [hsum]
          omega
        · intro st2 hcontra
          exact StepResult.noConfusion hcontra
      · simp only [if_neg hph]
        have hbody := stepBody_counters cfg e pid (getIter st.phaseIterations pid + 1)
          ⟨st.currentPhaseIndex, st.totalIterations + 1,
            setIter st.phaseIterations pid (getIter st.phaseIterations pid + 1)⟩
        constructor
        · unfold entriesCount
          rw [hbody.2.1]
          simp only [hsum]
          omega
        · intro st2 hnext
          have hb1 : st2.totalIterations = st.totalIterations + 1 := by
            have := hbody.1
            rw [hnext] at this
            simpa [StepResult.state] using this
          have hb2 : st2.phaseIterations
              = setIter st.phaseIterations pid (getIter st.phaseIterations pid + 1) := by
            have := hbody.2.1
            rw [hnext] at this
            simpa [StepResult.state] using this
          constructor
          · unfold entriesCount
            rw [hb2, hsum, hb1]
          · omega

/-- The entries bound propagates through the whole loop. -/
theorem runLoop_entries (cfg : OrchConfig) (env : Nat → EntryEnv) :
    ∀ (fuel n : Nat) (st : MachineState),
      entriesCount st = st.totalIterations → st.totalIterations ≤ cfg.maxTotal →
      entriesCount (runLoop cfg env fuel n st).state ≤ cfg.maxTotal := by
  intro fuel
  induction fuel with
  | zero =>
    intro n st h1 h2
    simpa [runLoop, RunOutcome.state] using (h1 ▸ h2)
  | succ fuel ih =>
    intro n st h1 h2
    rw [runLoop]
    split
    · have hstep := stepEntry_entries cfg (env n) st h1 h2
      cases hs : stepEntry cfg (env n) st with
      | next st2 =>
        simp only [hs]
        have hinv := hstep.2 st2 hs
        exact ih (n+1) st2 hinv.1 hinv.2
      | aborted k st2 =>
        simp only [hs]
        have := hstep.1
        rw [hs] at this
        simpa [RunOutcome.state, StepResult.state] using this
      | crashed m st2 =>
        simp only [hs]
        have := hstep.1
        rw [hs] at this
        simpa [RunOutcome.state, StepResult.state] using this
    · simpa [RunOutcome.state] using (h1 ▸ h2)

/-- C4: with max_total_iterations = N, the total number of phase entries
across the whole run — the sum of all per-phase iteration counters,
repair-loop re-entries included — never exceeds N, whatever the
configuration and however the external world behaves. -/
theorem C4_theorem (cfg : OrchConfig) (env : Nat → EntryEnv) (fuel : Nat) :
    entriesCount (runLoop cfg env fuel 0 initState).state ≤ cfg.maxTotal :=
  runLoop_entries cfg env fuel 0 initState rfl (Nat.zero_le _)

/-- C5 counterexample: on a worker timeout, call_worker dies before
reaching the artifact write, so nothing is persisted — contradicting the
claim that captured output is persisted on timeout too. -/
theorem C5_counterexample :
    (call_worker WorkerRes.timeout).persisted = none
    ∧ (call_worker WorkerRes.timeout).result = Except.error WorkerErr.timedOut := by
  exact ⟨rfl, rfl⟩

/-- C5 (amended): whenever the worker process completes — with exit code
zero or not — the combined captured output is persisted before any
further processing; on a timeout the run aborts without persisting
anything. -/
theorem C5_amended (stdout stderr : String) (rc : Int) :
    (call_worker (WorkerRes.completed stdout stderr rc)).persisted
      = some (pyStrip stdout ++ (if stderr ≠ "" then "\n" ++ stderr else ""))
    ∧ (call_worker WorkerRes.timeout).persisted = none := by
  constructor
  · by_cases hrc : rc ≠ 0
    · simp only [call_worker, if_pos hrc]
    · simp only [call_worker, if_neg hrc]
      cases hx : extract_json (pyStrip stdout) with
      | ok v => rfl
      | error err => rfl
  · rfl

/-- Per-path characterisation of the write-policy walk. -/
theorem checkPathsGo_none_iff (aN fN : List String) (paths : List String) :
    checkPathsGo aN fN paths = none ↔
      ∀ rel ∈ paths,
        fN.any (fun p => rel.startsWith p) = false
        ∧ (aN.isEmpty = true ∨ aN.any (fun p => rel.startsWith p) = true) := by
  induction paths with
  | nil => simp [checkPathsGo]
  | cons rel rest ih =>
    unfold checkPathsGo
    by_cases hf : fN.any (fun p => rel.startsWith p) = true
    · rw [if_pos hf]
      simp only [List.mem_cons]
      constructor
      · intro hcontra
        exact Option.noConfusion hcontra
      · intro hall
        have := (hall rel (Or.inl rfl)).1
        rw [this] at hf
        exact Bool.noConfusion hf
    · rw [if_neg hf]
      by_cases ha : ¬ aN.isEmpty ∧ ¬ aN.any (fun p => rel.startsWith p)
      · rw [if_pos ha]
        constructor
        · intro hcontra
          exact Option.noConfusion hcontra
        · intro hall
          have h2 := (hall rel (List.mem_cons_self rel rest)).2
          rcases h2 with h2 | h2
          · exact absurd h2 (by simpa using ha.1)
          · exact absurd h2 (by simpa using ha.2)
      · rw [if_neg ha]
        rw [ih]
        constructor
        · intro hrest rel2 hmem
          rcases List.mem_cons.mp hmem with heq | hmem2
          · subst heq
            refine ⟨by simpa using hf, ?_⟩
            rcases not_and_or.mp ha with h | h
            · exact Or.inl (by simpa using h)
            · exact Or.inr (by simpa using h)
          · exact hrest rel2 hmem2
        · intro hall rel2 hmem
          exact hall rel2 (List.mem_cons_of_mem rel hmem)

/-- C8: a changed path fails the write policy exactly when it starts
with a normalized forbidden prefix (forbidden wins — such a path fails
even if it also matches an allowed prefix, since the conjunction below
requires no forbidden hit), or when the allowed set is non-empty and it
starts with none of its prefixes; an empty allowed set imposes no
allow-list restriction and an empty changed list trivially passes. -/
theorem C8_theorem (changed allowed forbidden : List String) :
    (check_write_paths [] allowed forbidden = none)
    ∧ (check_write_paths changed allowed forbidden = none ↔
        ∀ rel ∈ changed,
          ((forbidden.map (fun f => f.replace "\\" "/")).any
              (fun p => rel.startsWith p) = false)
          ∧ (allowed = []
              ∨ (allowed.map (fun a => a.replace "\\" "/")).any
                  (fun p => rel.startsWith p) = true)) := by
  constructor
  · rfl
  · unfold check_write_paths
    rw [checkPathsGo_none_iff]
    constructor
    · intro h rel hmem
      have := h rel hmem
      refine ⟨this.1, ?_⟩
      rcases this.2 with h2 | h2
      · exact Or.inl (by simpa using h2)
      · exact Or.inr h2
    · intro h rel hmem
      have := h rel hmem
      refine ⟨this.1, ?_⟩
      rcases this.2 with h2 | h2
      · exact Or.inl (by simp [h2])
      · exact Or.inr h2

/-- The failure list aggregated by the gate run is empty exactly when
every executed check exited zero. -/
theorem run_gates_fails_iff (cmds : List (String × String)) (exitOf : String → Int)
    (iter : Nat) :
    ∀ (req : List String) (rep : List GateCheck) (fails : List String),
      run_gates cmds exitOf iter req = Except.ok (rep, fails) →
      (fails = [] ↔ ∀ c ∈ rep, c.exit_code = 0) := by
  intro req
  induction req with
  | nil =>
    intro rep fails h
    unfold run_gates at h
    injection h with hpair
    rw [Prod.mk.injEq] at hpair
    obtain ⟨h1, h2⟩ := hpair
    subst h1
    subst h2
    simp
  | cons name rest ih =>
    intro rep fails h
    unfold run_gates at h
    split at h
    · exact Except.noConfusion h
    · split at h
      · exact Except.noConfusion h
      · split at h
        · exact Except.noConfusion h
        · rename_i cmd hcmd hne x cs fs hrec
          injection h with hpair
          rw [Prod.mk.injEq] at hpair
          obtain ⟨h1, h2⟩ := hpair
          subst h1
          subst h2
          have ihr := ih cs fs hrec
          by_cases hec : exitOf name ≠ 0
          · rw [if_pos hec]
            constructor
            · intro hcontra
              exact List.noConfusion hcontra
            · intro hall
              exact absurd (hall _ (List.mem_cons_self _ _)) hec
          · rw [if_neg hec]
            push_neg at hec
            constructor
            · intro hfs
              intro c hc
              rcases List.mem_cons.mp hc with heq | hmem
              · subst heq
                exact hec
              · exact (ihr.mp hfs) c hmem
            · intro hall
              exact ihr.mpr (fun c hc => hall c (List.mem_cons_of_mem _ hc))

/-- C7: the persisted verify control object is built solely from the
actually executed gate commands and their exit codes; of the worker's
control object only the narration field survives, so two worker
responses agreeing on narration — whatever results they self-report —
yield identical persisted objects, and the all_passed verdict is true
exactly when every executed gate exited zero. -/
theorem C7_theorem (c1 c2 : JVal) (cmds : List (String × String)) (exitOf : String → Int)
    (iter : Nat) (req : List String) (rep : List GateCheck) (fails : List String)
    (hnarr : jGet c1 "narration" (JVal.jstr "") = jGet c2 "narration" (JVal.jstr ""))
    (hg : run_gates cmds exitOf iter req = Except.ok (rep, fails)) :
    mk_verify_control c1 rep fails = mk_verify_control c2 rep fails
    ∧ ((mk_verify_control c1 rep fails).all_passed = true ↔ ∀ c ∈ rep, c.exit_code = 0)
    ∧ (mk_verify_control c1 rep fails).failures = fails := by
  refine ⟨?_, ?_, rfl⟩
  · unfold mk_verify_control
    rw [hnarr]
  · show fails.isEmpty = true ↔ _
    rw [List.isEmpty_iff]
    exact run_gates_fails_iff cmds exitOf iter req rep fails hg

/-- C7 witness: two controls differing only in their self-reported
all_passed and failures fields produce the same persisted object. -/
theorem C7_witness :
    (jGet (JVal.jobj [("narration", JVal.jstr "hi"), ("all_passed", JVal.jbool true)])
        "narration" (JVal.jstr "")
      = jGet (JVal.jobj [("narration", JVal.jstr "hi"), ("all_passed", JVal.jbool false),
          ("failures", JVal.jarr [JVal.jstr "made-up"])]) "narration" (JVal.jstr "")
      ∧ run_gates [("gate", "false")] (fun _ => 1) 1 ["gate"]
          = Except.ok ([gateCheckW], ["gate failed (exit 1)"]))
    ∧ (mk_verify_control (JVal.jobj [("narration", JVal.jstr "hi"), ("all_passed", JVal.jbool true)])
          [gateCheckW] ["gate failed (exit 1)"]
        = mk_verify_control (JVal.jobj [("narration", JVal.jstr "hi"), ("all_passed", JVal.jbool false),
            ("failures", JVal.jarr [JVal.jstr "made-up"])]) [gateCheckW] ["gate failed (exit 1)"]
      ∧ ((mk_verify_control (JVal.jobj [("narration", JVal.jstr "hi"), ("all_passed", JVal.jbool true)])
            [gateCheckW] ["gate failed (exit 1)"]).all_passed = true
          ↔ ∀ c ∈ [gateCheckW], c.exit_code = 0)
      ∧ (mk_verify_control (JVal.jobj [("narration", JVal.jstr "hi"), ("all_passed", JVal.jbool true)])
          [gateCheckW] ["gate failed (exit 1)"]).failures = ["gate failed (exit 1)"]) :=
  ⟨⟨rfl, rfl⟩,
    C7_theorem (JVal.jobj [("narration", JVal.jstr "hi"), ("all_passed", JVal.jbool true)])
      (JVal.jobj [("narration", JVal.jstr "hi"), ("all_passed", JVal.jbool false),
        ("failures", JVal.jarr [JVal.jstr "made-up"])])
      [("gate", "false")] (fun _ => 1) 1 ["gate"] [gateCheckW] ["gate failed (exit 1)"]
      rfl rfl⟩

/-- The strict path comparison is irreflexive. -/
theorem pathLt_irrefl : ∀ a : List Nat, pathLt a a = false := by
  intro a
  induction a with
  | nil => rfl
  | cons x xs ih =>
    unfold pathLt
    rw [if_neg (Nat.lt_irrefl x), if_neg (Nat.lt_irrefl x)]
    exact ih

theorem pathLt_trans : ∀ a b c : List Nat,
    pathLt a b = true → pathLt b c = true → pathLt a c = true := by
  intro a
  induction a with
  | nil =>
    intro b c h1 h2
    cases b with
    | nil => exact absurd h1 (by simp [pathLt])
    | cons y ys =>
      cases c with
      | nil => exact absurd h2 (by simp [pathLt])
      | cons z zs => rfl
  | cons x xs ih =>
    intro b c h1 h2
    cases b with
    | nil => exact absurd h1 (by simp [pathLt])
    | cons y ys =>
      cases c with
      | nil => exact absurd h2 (by simp [pathLt])
      | cons z zs =>
        unfold pathLt at h1 h2 ⊢
        split_ifs at h1 h2 ⊢ <;> try omega
        all_goals try rfl
        · rename_i hxy hyx hyz hzy hxz hzx
          have hx : x = y := by omega
          have hy : y = z := by omega
          subst hx
          subst hy
          exact ih ys zs h1 h2

theorem pathLt_asymm (a b : List Nat) (h : pathLt a b = true) : pathLt b a = false := by
  by_contra hcontra
  rw [Bool.not_eq_false] at hcontra
  have := pathLt_trans a b a h hcontra
  rw [pathLt_irrefl] at this
  exact Bool.noConfusion this

theorem pathLt_neg_trans (x y z : List Nat) (h1 : pathLt x y = true) (h2 : pathLt z y = false) :
    pathLt z x = false := by
  by_contra hcontra
  rw [Bool.not_eq_false] at hcontra
  have := pathLt_trans z x y hcontra h1
  rw [h2] at this
  exact Bool.noConfusion this

theorem pyInsert_perm (lt : VErr → VErr → Bool) (x : VErr) :
    ∀ l, (pyInsert lt x l).Perm (x :: l) := by
  intro l
  induction l with
  | nil => exact List.Perm.refl _
  | cons y ys ih =>
    unfold pyInsert
    by_cases h : lt x y
    · rw [if_pos h]
    · rw [if_neg h]
      exact (List.Perm.cons y ih).trans (List.Perm.swap x y ys)

theorem pyInsert_sorted (x : VErr) :
    ∀ l, List.Pairwise (fun a b => pathLt b.path a.path = false) l →
      List.Pairwise (fun a b => pathLt b.path a.path = false)
        (pyInsert (fun e1 e2 => pathLt e1.path e2.path) x l) := by
  intro l
  induction l with
  | nil =>
    intro _
    simp [pyInsert]
  | cons y ys ih =>
    intro hp
    rw [List.pairwise_cons] at hp
    unfold pyInsert
    by_cases h : pathLt x.path y.path = true
    · rw [if_pos h]
      rw [List.pairwise_cons]
      constructor
      · intro z hz
        rcases List.mem_cons.mp hz with heq | hmem
        · subst heq
          exact pathLt_asymm x.path z.path h
        · exact pathLt_neg_trans x.path y.path z.path h (hp.1 z hmem)
      · rw [List.pairwise_cons]
        exact hp
    · rw [if_neg h]
      rw [List.pairwise_cons]
      constructor
      · intro w hw
        have hw2 := (pyInsert_perm (fun e1 e2 => pathLt e1.path e2.path) x ys).mem_iff.mp hw
        rcases List.mem_cons.mp hw2 with heq | hmem
        · subst heq
          simpa using h
        · exact hp.1 w hmem
      · exact ih hp.2

theorem foldl_insert_sorted (l : List VErr) :
    ∀ acc, List.Pairwise (fun a b => pathLt b.path a.path = false) acc →
      List.Pairwise (fun a b => pathLt b.path a.path = false)
        (l.foldl (fun acc e => pyInsert (fun e1 e2 => pathLt e1.path e2.path) e acc) acc) := by
  induction l with
  | nil => intro acc h; exact h
  | cons e rest ih =>
    intro acc h
    exact ih _ (pyInsert_sorted e acc h)

theorem foldl_insert_perm (l : List VErr) :
    ∀ acc, (l.foldl (fun acc e => pyInsert (fun e1 e2 => pathLt e1.path e2.path) e acc) acc).Perm
      (acc ++ l) := by
  induction l with
  | nil => intro acc; simp
  | cons e rest ih =>
    intro acc
    exact ((ih _).trans
      ((pyInsert_perm (fun e1 e2 => pathLt e1.path e2.path) e acc).append_right rest)).trans
      List.perm_middle.symm

theorem sorted_errors_perm (errors : List VErr) : (sorted_errors errors).Perm errors := by
  have := foldl_insert_perm errors []
  simpa [sorted_errors] using this

/-- C6 counterexample: with 21 violations the abort message is built
from only the first 20 sorted violations, not the full list. -/
theorem C6_counterexample :
    validate_json errs21
      = some (String.intercalate "\n"
          ("JSON failed schema validation:" :: (reported_errors errs21).map errLine))
    ∧ (reported_errors errs21).length = 20
    ∧ errs21.length = 21
    ∧ reported_errors errs21 ≠ sorted_errors errs21 := by
  refine ⟨rfl, rfl, rfl, by decide⟩

/-- C6 (amended): an empty violation list is accepted and a non-empty
one aborts; the report is the sorted-by-path violation list truncated
to the first 20 entries (deterministic, stable), not the full list. -/
theorem C6_amended (errors : List VErr) :
    (validate_json errors = none ↔ errors = [])
    ∧ List.Pairwise (fun a b => pathLt b.path a.path = false) (reported_errors errors)
    ∧ (reported_errors errors).length = min 20 errors.length
    ∧ (sorted_errors errors).Perm errors
    ∧ List.Sublist (reported_errors errors) (sorted_errors errors) := by
  have hperm := sorted_errors_perm errors
  refine ⟨?_, ?_, ?_, hperm, List.take_sublist 20 _⟩
  · unfold validate_json
    by_cases hemp : (sorted_errors errors).isEmpty = true
    · rw [if_pos hemp]
      simp only [true_iff]
      have h0 : sorted_errors errors = [] := List.isEmpty_iff.mp hemp
      have hlen := hperm.length_eq
      rw [h0] at hlen
      exact List.length_eq_zero.mp hlen.symm
    · rw [if_neg hemp]
      constructor
      · intro hcontra
        exact Option.noConfusion hcontra
      · intro hnil
        subst hnil
        exact absurd rfl hemp
  · exact List.Pairwise.sublist (List.take_sublist 20 _)
      (foldl_insert_sorted errors [] (List.Pairwise.nil))
  · unfold reported_errors
    rw [List.length_take, hperm.length_eq]

/-- A list without a closing brace has no greedy raw-pattern tail. -/
theorem upToLastRB_none (l : List Char) (h : rbrace ∉ l) : upToLastRB l = none := by
  induction l with
  | nil => rfl
  | cons c cs ih =>
    unfold upToLastRB
    rw [ih (fun hm => h (List.mem_cons_of_mem c hm))]
    rw [if_neg (fun heq => h (List.mem_cons.mpr (Or.inl heq.symm)))]

theorem upToLastRB_split (mid post : List Char) (hpost : rbrace ∉ post) :
    upToLastRB (mid ++ (rbrace :: post)) = some (mid ++ [rbrace]) := by
  induction mid with
  | nil =>
    rw [List.nil_append]
    unfold upToLastRB
    rw [upToLastRB_none post hpost]
    rfl
  | cons c cs ih =>
    rw [List.cons_append]
    unfold upToLastRB
    rw [ih]
    rfl

theorem matchRawAt_split (mid post : List Char) (hpost : rbrace ∉ post) :
    matchRawAt (lbrace :: (mid ++ (rbrace :: post))) = some (lbrace :: (mid ++ [rbrace])) := by
  show (if lbrace = lbrace
      then Option.map (fun t => lbrace :: t) (upToLastRB (mid ++ (rbrace :: post)))
      else none) = some (lbrace :: (mid ++ [rbrace]))
  rw [if_pos rfl, upToLastRB_split mid post hpost]
  rfl

theorem matchRawAt_not_lbrace (c : Char) (cs : List Char) (h : ¬ c = lbrace) :
    matchRawAt (c :: cs) = none := by
  show (if c = lbrace then Option.map (fun t => lbrace :: t) (upToLastRB cs) else none) = none
  rw [if_neg h]

theorem searchRaw_decomp (pre mid post : List Char) (hpre : lbrace ∉ pre)
    (hpost : rbrace ∉ post) :
    searchRaw (pre ++ (lbrace :: (mid ++ (rbrace :: post))))
      = some (lbrace :: (mid ++ [rbrace])) := by
  induction pre with
  | nil =>
    rw [List.nil_append]
    have e : searchRaw (lbrace :: (mid ++ (rbrace :: post)))
        = (matchRawAt (lbrace :: (mid ++ (rbrace :: post)))
            <|> searchRaw (mid ++ (rbrace :: post))) := rfl
    rw [e, matchRawAt_split mid post hpost]
    rfl
  | cons c cs ih =>
    rw [List.cons_append]
    have e : searchRaw (c :: (cs ++ (lbrace :: (mid ++ (rbrace :: post)))))
        = (matchRawAt (c :: (cs ++ (lbrace :: (mid ++ (rbrace :: post)))))
            <|> searchRaw (cs ++ (lbrace :: (mid ++ (rbrace :: post))))) := rfl
    rw [e, matchRawAt_not_lbrace c _ (fun heq => hpre (List.mem_cons.mpr (Or.inl heq.symm)))]
    rw [Option.none_orElse]
    exact ih (fun hm => hpre (List.mem_cons_of_mem c hm))

/-- C2 counterexample: a text consisting of two well-formed raw JSON
objects contains a valid JSON object, yet extract_json fails: the raw
pattern greedily spans from the first opening brace to the last closing
brace, covering both objects, and that span does not parse.  The first
syntactically valid candidate does not win. -/
theorem C2_counterexample :
    ("\x7b\"a\": 1\x7d \x7b\"b\": 2\x7d" : String)
        = "\x7b\"a\": 1\x7d" ++ " \x7b\"b\": 2\x7d"
    ∧ json_loads "\x7b\"a\": 1\x7d" = some (JVal.jobj [("a", JVal.jnum "1")])
    ∧ extract_json "\x7b\"a\": 1\x7d \x7b\"b\": 2\x7d" = Except.error "JSON parse error" := by
  refine ⟨rfl, rfl, rfl⟩

/-- C2 (amended): when no markdown fence matches, extract_json parses
exactly one raw candidate — the region from the first opening brace to
the last closing brace of the whole text — and returns exactly that
object when the region is valid JSON; a valid object embedded in text
whose greedy region is invalid is not found. -/
theorem C2_amended (pre mid post : List Char) (v : JVal)
    (hfence : searchFence (pre ++ (lbrace :: (mid ++ (rbrace :: post)))) = none)
    (hpre : lbrace ∉ pre) (hpost : rbrace ∉ post)
    (hparse : json_loads (String.mk (lbrace :: (mid ++ [rbrace]))) = some v) :
    extract_json (String.mk (pre ++ (lbrace :: (mid ++ (rbrace :: post))))) = Except.ok v := by
  unfold extract_json
  rw [show (String.mk (pre ++ (lbrace :: (mid ++ (rbrace :: post))))).toList
      = pre ++ (lbrace :: (mid ++ (rbrace :: post))) from rfl]
  rw [hfence]
  show rawExtract (String.mk (pre ++ (lbrace :: (mid ++ (rbrace :: post))))) = Except.ok v
  unfold rawExtract
  rw [show (String.mk (pre ++ (lbrace :: (mid ++ (rbrace :: post))))).toList
      = pre ++ (lbrace :: (mid ++ (rbrace :: post))) from rfl]
  rw [searchRaw_decomp pre mid post hpre hpost]
  show (match json_loads (String.mk (lbrace :: (mid ++ [rbrace]))) with
      | some v2 => Except.ok v2
      | none => Except.error "JSON parse error") = Except.ok v
  rw [hparse]

/-- C2 witness: the amended statement at a concrete fence-free text
with a single raw JSON object. -/
theorem C2_witness :
    (searchFence (("noise before ").toList
        ++ (lbrace :: (("\"a\": 1").toList ++ (rbrace :: (" trailing").toList)))) = none
      ∧ lbrace ∉ ("noise before ").toList
      ∧ rbrace ∉ (" trailing").toList
      ∧ json_loads (String.mk (lbrace :: (("\"a\": 1").toList ++ [rbrace])))
          = some (JVal.jobj [("a", JVal.jnum "1")]))
    ∧ extract_json (String.mk (("noise before ").toList
          ++ (lbrace :: (("\"a\": 1").toList ++ (rbrace :: (" trailing").toList)))))
        = Except.ok (JVal.jobj [("a", JVal.jnum "1")]) :=
  ⟨⟨rfl, by decide, by decide, rfl⟩,
    C2_amended ("noise before ").toList ("\"a\": 1").toList (" trailing").toList
      (JVal.jobj [("a", JVal.jnum "1")]) rfl (by decide) (by decide) rfl⟩
